import Mathlib

/-!
Verification of the terminal Game of Life program (src/main.rs).

The source is shallowly embedded: grids are lists of lists of booleans,
usize arithmetic with as-casts is modelled by wrapping modulo 2 ^ 64,
fallible operations (panicking indexing, gen_bool on an out-of-range
probability) return Option, and terminal output is modelled as a list of
draw operations.
-/

set_option maxHeartbeats 1000000

/-- Size of the console, from the ConsoleSize struct in the source:
rows and columns of the terminal. -/
structure ConsoleSize where
  rows : Nat
  cols : Nat
deriving DecidableEq

/-- A grid is a vector of rows, each row a vector of boolean cells
(Vec of Vec of bool in the source). -/
abbrev Grid := List (List Bool)

/-- The number of values of the usize type on the 64-bit target. -/
def USIZE : Nat := 2 ^ 64

/-- The value of the Rust expression (z as usize) where z is an isize-valued
signed computation: two's-complement reinterpretation, i.e. reduction modulo
2 ^ 64 (release-mode wrapping semantics). -/
def castWrap (z : Int) : Nat := (z % (USIZE : Int)).toNat

/-- Checked double indexing grid[i][j] via Option: some value when the cell
exists, none when either index is out of range (a Rust panic for the
bracket-indexing sites, absence for the .get sites). -/
def gridIndex (grid : Grid) (i j : Nat) : Option Bool :=
  (grid.get? i).bind (fun row => row.get? j)

/-- The neighbor lookup in live_neighbors:
grid.get((y + i) as usize).and_then(row.get((x + j) as usize)),
with the signed sums cast to usize by wrapping. -/
def getWrapped (grid : Grid) (r c : Int) : Option Bool :=
  (grid.get? (castWrap r)).bind (fun row => row.get? (castWrap c))

/-- The eight (row-offset, column-offset) pairs visited by the two nested
loops for i in -1..=1, for j in -1..=1 of live_neighbors, in iteration
order, with the (0, 0) pair skipped by the continue. -/
def neighborOffsets : List (Int × Int) :=
  [(-1, -1), (-1, 0), (-1, 1), (0, -1), (0, 1), (1, -1), (1, 0), (1, 1)]

/-- fn live_neighbors(grid, x, y): counts, over the eight neighbor offsets,
the cells that exist (are in bounds after the usize cast) and are live;
cell as usize contributes 1 for a live cell and 0 for a dead one. -/
def live_neighbors (grid : Grid) (x y : Nat) : Nat :=
  neighborOffsets.foldl
    (fun count ij =>
      match getWrapped grid ((y : Int) + ij.1) ((x : Int) + ij.2) with
      | some cell => count + (if cell then 1 else 0)
      | none => count)
    0

/-- The body of update_grid for one cell: compute live_neighbors(grid, j, i),
read grid[i][j] (a panic, hence none, when out of range), and apply the
survival rule (2 or 3 neighbors) to a live cell and the birth rule
(exactly 3 neighbors) to a dead cell. -/
def nextCell (grid : Grid) (i j : Nat) : Option Bool :=
  let n := live_neighbors grid j i
  match gridIndex grid i j with
  | some c => some (if c then n == 2 || n == 3 else n == 3)
  | none => none

/-- Option-valued map over a list, aborting at the first failure (the order
in which a Rust loop would hit a panic). -/
def mapO {α β : Type} (f : α → Option β) : List α → Option (List β)
  | [] => some []
  | a :: l =>
    match f a with
    | some b =>
      match mapO f l with
      | some bs => some (b :: bs)
      | none => none
    | none => none

/-- fn update_grid(grid, size): builds a new rows-by-cols grid whose cell
(i, j) is nextCell grid i j, scanning rows then columns exactly as the two
nested for loops do.  The new grid is written position by position and never
read during the pass, so the pass is equivalent to this map over row and
column indices; none models the panic on an out-of-range grid[i][j]. -/
def update_grid (grid : Grid) (size : ConsoleSize) : Option Grid :=
  mapO (fun i => mapO (fun j => nextCell grid i j) (List.range size.cols))
    (List.range size.rows)

/-- The expression vec![vec![false; cols]; rows]: an all-dead grid of the
given dimensions. -/
def mkGrid (r c : Nat) : Grid := List.replicate r (List.replicate c false)

/-- Checked write g[i][j] = v: some updated grid when the position exists,
none (a Rust panic) otherwise. -/
def set2 (g : Grid) (i j : Nat) (v : Bool) : Option Grid :=
  match g.get? i with
  | some row => if j < row.length then some (g.set i (row.set j v)) else none
  | none => none

/-- Option-valued left fold, aborting at the first failure. -/
def foldO {α β : Type} (f : β → α → Option β) : β → List α → Option β
  | b, [] => some b
  | b, a :: l =>
    match f b a with
    | some b' => foldO f b' l
    | none => none

/-- fn update_grid again, at the granularity of individual statements: the
state carries the two vectors in scope, the input grid (which the body only
reads) and new_grid (which the body only writes).  Each loop iteration
computes live_neighbors from the current value of the grid variable, reads
grid[i][j] and stores the rule's result into new_grid[i][j]; the function
returns the final values of both vectors.  This definition is the body of
one iteration of the inner loop, with the state st2 carrying the pair
(grid, new_grid). -/
def update_grid_mut_inner (i : Nat) (st2 : Grid × Grid) (j : Nat) : Option (Grid × Grid) :=
  let n := live_neighbors st2.1 j i
  match gridIndex st2.1 i j with
  | some c =>
    match set2 st2.2 i j (if c then n == 2 || n == 3 else n == 3) with
    | some ng => some (st2.1, ng)
    | none => none
  | none => none

/-- The two nested loops of update_grid over the statement-level state:
returns the final values of the grid variable and of new_grid. -/
def update_grid_mut (grid : Grid) (size : ConsoleSize) : Option (Grid × Grid) :=
  foldO (fun st i => foldO (update_grid_mut_inner i) st (List.range size.cols))
    (grid, mkGrid size.rows size.cols) (List.range size.rows)

/-- One terminal draw operation issued by display_grid: a MoveTo cursor
command (with u16 coordinates) or a Print of a glyph string. -/
inductive DrawOp where
  | moveTo (x y : Nat)
  | print (s : String)
deriving DecidableEq

/-- The inner loop of fn display_grid over one row: for each cell at column
x, read prev_grid[y][x] (an unchecked index: none models the panic), and if
the cell differs, emit MoveTo(x as u16, y as u16) followed by Print of the
hash glyph for a live cell or a space for a dead one.  The u16 casts
truncate modulo 2 ^ 16. -/
def display_cells (prev : Grid) (y : Nat) : Nat → List Bool → Option (List DrawOp)
  | _, [] => some []
  | x, cell :: rest =>
    match gridIndex prev y x with
    | some p =>
      match display_cells prev y (x + 1) rest with
      | some ops =>
        some ((if cell != p then
                 [DrawOp.moveTo (x % 65536) (y % 65536),
                  DrawOp.print (if cell then "#" else " ")]
               else []) ++ ops)
      | none => none
    | none => none

/-- The outer loop of fn display_grid over the rows of the current grid,
with y the enumeration index. -/
def display_rows (prev : Grid) : Nat → Grid → Option (List DrawOp)
  | _, [] => some []
  | y, row :: rest =>
    match display_cells prev y 0 row with
    | some ops =>
      match display_rows prev (y + 1) rest with
      | some ops2 => some (ops ++ ops2)
      | none => none
    | none => none

/-- fn display_grid(grid, prev_grid): the sequence of draw operations
emitted before the final flush, or none if reading prev_grid panics. -/
def display_grid (grid prev : Grid) : Option (List DrawOp) :=
  display_rows prev 0 grid

/-- The first frame rendered by main: after initialize_grid, main sets
prev_grid = grid.clone() and the loop's first iteration calls
display_grid(grid, prev_grid), i.e. display_grid with two identical
arguments. -/
def first_frame (grid : Grid) : Option (List DrawOp) :=
  display_grid grid grid

/-- rng.gen_bool(p) from the rand crate, for one uniform sample u drawn
from [0, 1): per rand's documented contract it panics (none) when p is
outside [0, 1], otherwise it returns whether the sample falls below p
(so p = 0 is always false and p = 1 always true). -/
def gen_bool (p u : ℚ) : Option Bool :=
  if p < 0 ∨ 1 < p then none else some (decide (u < p))

/-- fn initialize_grid: builds the all-dead rows-by-cols grid and then, for
i in 0..cols and j in 0..rows, assigns grid[j][i] = rng.gen_bool(p).  The
terminal size is a parameter (the source obtains it from termsize, a u16
pair), and the random generator is modelled as the stream of uniform
samples it produces, consumed one per cell in iteration order.  This
definition is one iteration of the inner loop: draw gen_bool and store it
at grid[j][i]. -/
def initialize_cell (p : ℚ) (rng : Nat → ℚ) (size : ConsoleSize) (i : Nat)
    (g2 : Grid) (j : Nat) : Option Grid :=
  match gen_bool p (rng (i * size.rows + j)) with
  | some b => set2 g2 j i b
  | none => none

/-- The two nested loops of initialize_grid: for i in 0..cols and
j in 0..rows, the assignment grid[j][i] = rng.gen_bool(p). -/
def initialize_grid (p : ℚ) (size : ConsoleSize) (rng : Nat → ℚ) : Option Grid :=
  foldO (fun g i => foldO (initialize_cell p rng size i) g (List.range size.rows))
    (mkGrid size.rows size.cols) (List.range size.cols)

/-- The lines printed by main while resolving the probability argument,
one constructor per println! site. -/
inductive StartupMsg where
  | initialProbability (v : ℚ)
  | defaultProbability (v : ℚ)
  | usageHint
  | usageExample
deriving DecidableEq

/-- The argument handling at the top of main.  The f64 parse outcome of the
first command-line argument is the parameter: none when no argument was
given, some none when an argument was given but did not parse, and
some (some v) when it parsed to v.  Returns the resulting probability
(initialized to the 0.2 literal, modelled as 1/5) and the printed lines:
a parsed value overwrites the default and prints the value; a present but
unparseable argument leaves the default and prints nothing; a missing
argument prints the default notice and the two usage lines. -/
def resolve_probability (parsedArg : Option (Option ℚ)) : ℚ × List StartupMsg :=
  match parsedArg with
  | some parsed =>
    match parsed with
    | some val => (val, [StartupMsg.initialProbability val])
    | none => (1 / 5, [])
  | none =>
    (1 / 5,
     [StartupMsg.defaultProbability (1 / 5), StartupMsg.usageHint,
      StartupMsg.usageExample])

/-! Specification-side definitions, written from the spec's words, to be
compared with the embedded source functions. -/

/-- The value of the cell at signed coordinates (r, c), with every position
outside [0, rows) x [0, cols) reading as dead: the spec's ideal
out-of-bounds-safe lookup (no wrapping). -/
def cellAt (grid : Grid) (r c : Int) : Bool :=
  if 0 ≤ r ∧ 0 ≤ c then (gridIndex grid r.toNat c.toNat).getD false
  else false

/-- The number of live cells among the eight Moore neighbors of
(row, col) that lie inside the grid: the count the spec attributes to
count_live_neighbors. -/
def mooreLiveCount (grid : Grid) (row col : Nat) : Nat :=
  neighborOffsets.foldl
    (fun count ij =>
      count + (if cellAt grid ((row : Int) + ij.1) ((col : Int) + ij.2) then 1 else 0))
    0

/-- The glyph the spec assigns to a cell: a hash for live, a space for
dead. -/
def specGlyph (cell : Bool) : String := if cell then "#" else " "

/-- Modelled from the spec: the draw operations paint_diff owes one row,
starting at column x: at every column whose cell differs from the previous
frame, a cursor move to that position followed by the cell's glyph, and
nothing at any other column. -/
def specCellOps (prev : Grid) (y : Nat) : Nat → List Bool → List DrawOp
  | _, [] => []
  | x, cell :: rest =>
    (if cell != (gridIndex prev y x).getD false then
       [DrawOp.moveTo x y, DrawOp.print (specGlyph cell)]
     else []) ++ specCellOps prev y (x + 1) rest

/-- Modelled from the spec: the rows of paint_diff's output in row-major
order, y being the index of the first row. -/
def specRowOps (prev : Grid) : Nat → Grid → List DrawOp
  | _, [] => []
  | y, row :: rest => specCellOps prev y 0 row ++ specRowOps prev (y + 1) rest

/-- Modelled from the spec: the full draw-operation list paint_diff owes:
exactly one move-and-print pair per changed position, in row-major order. -/
def specDiffOps (grid prev : Grid) : List DrawOp := specRowOps prev 0 grid

/-- Boolean test that two grids have the same shape: equally many rows and
pairwise equal row lengths. -/
def sameDims : Grid → Grid → Bool
  | [], [] => true
  | r :: g, p :: q => r.length == p.length && sameDims g q
  | _, _ => false

/-- The rectangular-grid invariant of the data model: r rows, each of
length c. -/
abbrev Dims (g : Grid) (r c : Nat) : Prop :=
  g.length = r ∧ ∀ row ∈ g, row.length = c

/-- The blinker test configuration from the spec: a 5-by-5 grid whose only
live cells are (2,1), (2,2) and (2,3). -/
def blinker : Grid :=
  [[false, false, false, false, false],
   [false, false, false, false, false],
   [false, true, true, true, false],
   [false, false, false, false, false],
   [false, false, false, false, false]]

/-- The grid update_grid produces when every read is in bounds: the
rows-by-cols array of rule outcomes, used to characterize update_grid. -/
def updateTotal (grid : Grid) (size : ConsoleSize) : Grid :=
  (List.range size.rows).map (fun i =>
    (List.range size.cols).map (fun j =>
      let n := live_neighbors grid j i
      if (gridIndex grid i j).getD false then n == 2 || n == 3 else n == 3))

/-! General helper lemmas about the Option-valued combinators. -/

theorem mapO_some {α β : Type} (f : α → Option β) (g : α → β) :
    ∀ l : List α, (∀ a ∈ l, f a = some (g a)) → mapO f l = some (l.map g) := by
  intro l
  induction l with
  | nil => intro _; rfl
  | cons a l ih =>
    intro h
    have ha := h a (by simp)
    have hl := ih (fun x hx => h x (by simp [hx]))
    simp [mapO, ha, hl]

theorem foldO_inv {α β : Type} (f : β → α → Option β) (P : β → Prop) :
    ∀ (l : List α) (b : β), P b →
      (∀ b' a, a ∈ l → P b' → ∃ b'', f b' a = some b'' ∧ P b'') →
      ∃ b'', foldO f b l = some b'' ∧ P b'' := by
  intro l
  induction l with
  | nil => intro b hb _; exact ⟨b, rfl, hb⟩
  | cons a l ih =>
    intro b hb hstep
    obtain ⟨b', hfa, hb'⟩ := hstep b a (by simp) hb
    obtain ⟨b'', hfold, hb''⟩ := ih b' hb' (fun x y hy hx => hstep x y (by simp [hy]) hx)
    exact ⟨b'', by simp [foldO, hfa, hfold], hb''⟩

/-! Helper lemmas about grids, dimensions and the checked accesses. -/

theorem gridIndex_total {g : Grid} {r c : Nat} (h : Dims g r c) {i j : Nat}
    (hi : i < r) (hj : j < c) : ∃ b, gridIndex g i j = some b := by
  obtain ⟨hlen, hrows⟩ := h
  have hi' : i < g.length := by omega
  have hg : g.get? i = some (g.get ⟨i, hi'⟩) := List.get?_eq_get hi'
  have hmem : g.get ⟨i, hi'⟩ ∈ g := List.get_mem g i hi'
  have hlen2 : (g.get ⟨i, hi'⟩).length = c := hrows _ hmem
  have hj' : j < (g.get ⟨i, hi'⟩).length := by omega
  exact ⟨_, by rw [gridIndex, hg]; exact List.get?_eq_get hj'⟩

theorem set2_some {g : Grid} {r c : Nat} (h : Dims g r c) {i j : Nat}
    (hi : i < r) (hj : j < c) (v : Bool) :
    ∃ g', set2 g i j v = some g' ∧ Dims g' r c ∧
      ∀ Q : Bool → Prop, (∀ row ∈ g, ∀ b ∈ row, Q b) → Q v →
        ∀ row ∈ g', ∀ b ∈ row, Q b := by
  obtain ⟨hlen, hrows⟩ := h
  have hi' : i < g.length := by omega
  have hg : g.get? i = some (g.get ⟨i, hi'⟩) := List.get?_eq_get hi'
  have hmem : g.get ⟨i, hi'⟩ ∈ g := List.get_mem g i hi'
  have hlr : (g.get ⟨i, hi'⟩).length = c := hrows _ hmem
  refine ⟨g.set i ((g.get ⟨i, hi'⟩).set j v), ?_, ⟨?_, ?_⟩, ?_⟩
  · rw [set2, hg]
    show (if j < (List.get g ⟨i, hi'⟩).length then _ else none) = _
    rw [if_pos (show j < (List.get g ⟨i, hi'⟩).length by omega)]
  · simp [hlen]
  · intro row' hrow'
    rcases List.mem_or_eq_of_mem_set hrow' with h1 | h1
    · exact hrows _ h1
    · rw [h1, List.length_set]
      exact hlr
  · intro Q hQ hv row' hrow' b hb
    rcases List.mem_or_eq_of_mem_set hrow' with h1 | h1
    · exact hQ _ h1 _ hb
    · rw [h1] at hb
      rcases List.mem_or_eq_of_mem_set hb with h2 | h2
      · exact hQ _ hmem _ h2
      · rw [h2]; exact hv

theorem mkGrid_dims (r c : Nat) : Dims (mkGrid r c) r c := by
  constructor
  · simp [mkGrid]
  · intro row hrow
    rw [mkGrid] at hrow
    rw [List.eq_of_mem_replicate hrow]
    simp

theorem mkGrid_all_false (r c : Nat) : ∀ row ∈ mkGrid r c, ∀ b ∈ row, b = false := by
  intro row hrow b hb
  rw [mkGrid] at hrow
  rw [List.eq_of_mem_replicate hrow] at hb
  exact List.eq_of_mem_replicate hb

/-! Characterization of update_grid on well-formed grids. -/

theorem update_grid_eq_total {grid : Grid} {size : ConsoleSize}
    (h : Dims grid size.rows size.cols) :
    update_grid grid size = some (updateTotal grid size) := by
  rw [update_grid, updateTotal]
  apply mapO_some
  intro i hi
  apply mapO_some
  intro j hj
  obtain ⟨b, hb⟩ := gridIndex_total h (List.mem_range.mp hi) (List.mem_range.mp hj)
  simp [nextCell, hb]

/-- C7: update_grid (advance) maps a well-formed rows-by-cols grid to a
grid with exactly the same dimensions: the same number of rows, every row
of length cols, so the rectangular-grid invariant is preserved by every
tick. -/
theorem advance_preserves_dims (grid : Grid) (size : ConsoleSize)
    (h : Dims grid size.rows size.cols) :
    ∃ g', update_grid grid size = some g' ∧ Dims g' size.rows size.cols := by
  refine ⟨updateTotal grid size, update_grid_eq_total h, ?_, ?_⟩
  · simp [updateTotal]
  · intro row hrow
    rw [updateTotal] at hrow
    obtain ⟨i, _, hrow⟩ := List.mem_map.mp hrow
    rw [← hrow]
    simp

/-- Witness for C7 at a concrete 2-by-2 grid. -/
theorem advance_preserves_dims_at :
    ∃ g', update_grid [[true, false], [false, true]] ⟨2, 2⟩ = some g' ∧ Dims g' 2 2 :=
  advance_preserves_dims [[true, false], [false, true]] ⟨2, 2⟩ (by decide)

/-- C9: the 5-by-5 blinker configuration returns to itself after two
applications of update_grid: the blinker oscillates with period 2. -/
theorem blinker_period_two :
    (update_grid blinker ⟨5, 5⟩).bind (fun g => update_grid g ⟨5, 5⟩) = some blinker := by
  decide

/-- C4: the first frame main renders is not a full paint: main clones the
freshly initialized grid into prev_grid and the loop's first call is
display_grid(grid, prev_grid) with both arguments identical, which issues
zero draw operations.  At the failing input, the 1-by-1 grid with a live
cell, nothing is written although the spec requires the hash glyph at
(0, 0). -/
theorem first_frame_draws_nothing : first_frame [[true]] = some [] := by decide

/-- C5 counterexample: when the first argument is present but does not
parse, main keeps the default probability 1/5 and the list of printed
startup messages is empty, contradicting the claimed printed usage hint or
replacement notice. -/
theorem resolve_probability_invalid_silent :
    resolve_probability (some none) = (1 / 5, []) := rfl

/-- C5 amended: a present but unparseable first argument falls back to the
default probability 1/5 non-fatally, and prints nothing at all (the usage
hint is printed only when the argument is missing). -/
theorem resolve_probability_invalid_fallback (arg : Option (Option ℚ))
    (h : arg = some none) :
    (resolve_probability arg).1 = 1 / 5 ∧ (resolve_probability arg).2 = [] := by
  subst h
  exact ⟨rfl, rfl⟩

/-- Witness for the amended C5 at the concrete unparseable-argument
outcome. -/
theorem resolve_probability_invalid_fallback_at :
    (resolve_probability (some none)).1 = 1 / 5 ∧
      (resolve_probability (some none)).2 = [] :=
  resolve_probability_invalid_fallback (some none) rfl

/-- C6 counterexample: initialize_grid with live probability 2 on a 1-by-1
console fails (gen_bool panics on a probability above 1), instead of
producing an always-live grid. -/
theorem initialize_grid_panics_above_one :
    initialize_grid 2 ⟨1, 1⟩ (fun _ => 0) = none := by decide

/-- C10 counterexample: a previous grid with fewer rows than the current
grid does not necessarily fault: with current grid [[]] (one empty row) and
previous grid [] (no rows), display_grid reads nothing and succeeds with
zero draw operations. -/
theorem display_grid_short_prev_no_fault :
    display_grid [([] : List Bool)] [] = some [] ∧
      ([] : Grid).length < [([] : List Bool)].length :=
  ⟨rfl, by decide⟩

/-! Analysis of live_neighbors: the wrapped lookup agrees with the ideal
out-of-bounds-safe lookup for coordinates below usize::MAX, and the count
never exceeds eight. -/

theorem match_count_eq (o : Option Bool) (count : Nat) :
    (match o with
     | some cell => count + (if cell then 1 else 0)
     | none => count) = count + (if o.getD false then 1 else 0) := by
  cases o with
  | none => simp
  | some c => rfl

theorem live_neighbors_foldl (grid : Grid) (x y : Nat) :
    live_neighbors grid x y =
      neighborOffsets.foldl
        (fun count ij =>
          count +
            (if (getWrapped grid ((y : Int) + ij.1) ((x : Int) + ij.2)).getD false
             then 1 else 0))
        0 := by
  rw [live_neighbors]
  exact List.foldl_ext _ _ 0 (fun a b _ => match_count_eq _ a)

theorem bool_ite_le (b : Bool) : (if b then 1 else 0) ≤ 1 := by
  cases b <;> simp

theorem foldl_add_le {α : Type} (t : α → Nat) (h : ∀ a, t a ≤ 1) :
    ∀ (l : List α) (init : Nat), l.foldl (fun c a => c + t a) init ≤ init + l.length := by
  intro l
  induction l with
  | nil => intro init; simp
  | cons a l ih =>
    intro init
    have h1 := ih (init + t a)
    have h2 := h a
    simp only [List.foldl_cons, List.length_cons]
    omega

theorem live_neighbors_le_eight (grid : Grid) (x y : Nat) :
    live_neighbors grid x y ≤ 8 := by
  rw [live_neighbors_foldl]
  have h := foldl_add_le
    (fun ij : Int × Int =>
      if (getWrapped grid ((y : Int) + ij.1) ((x : Int) + ij.2)).getD false then 1 else 0)
    (fun ij => bool_ite_le _) neighborOffsets 0
  simpa using h

theorem castWrap_of_lt {z : Int} (h0 : 0 ≤ z) (h1 : z < (USIZE : Int)) :
    castWrap z = z.toNat := by
  rw [castWrap, Int.emod_eq_of_lt h0 h1]

theorem castWrap_neg_one : castWrap (-1) = USIZE - 1 := by decide

theorem getWrapped_eq_cellAt {grid : Grid} (hg : grid.length ≤ USIZE - 1)
    (hrow : ∀ row ∈ grid, row.length ≤ USIZE - 1) {r c : Int}
    (hr1 : -1 ≤ r) (hr2 : r < (USIZE : Int)) (hc1 : -1 ≤ c) (hc2 : c < (USIZE : Int)) :
    (getWrapped grid r c).getD false = cellAt grid r c := by
  have hU : USIZE = 18446744073709551616 := by norm_num [USIZE]
  rcases lt_or_le r 0 with hr | hr
  · have hrm : r = -1 := by omega
    subst hrm
    have hnone : grid.get? (castWrap (-1)) = none := by
      rw [castWrap_neg_one]
      exact List.get?_eq_none.mpr (by omega)
    rw [getWrapped, hnone, cellAt, if_neg (by omega : ¬((0 : Int) ≤ -1 ∧ 0 ≤ c))]
    rfl
  · have hcwr : castWrap r = r.toNat := castWrap_of_lt hr hr2
    rcases lt_or_le c 0 with hc | hc
    · have hcm : c = -1 := by omega
      subst hcm
      rw [getWrapped, hcwr, castWrap_neg_one, cellAt,
        if_neg (by omega : ¬((0 : Int) ≤ r ∧ (0 : Int) ≤ -1))]
      cases hrow2 : grid.get? r.toNat with
      | none => rfl
      | some row =>
        have hrownone : row.get? (USIZE - 1) = none := by
          refine List.get?_eq_none.mpr ?_
          have := hrow row (List.get?_mem hrow2)
          omega
        rw [Option.some_bind, hrownone]
        rfl
    · have hcwc : castWrap c = c.toNat := castWrap_of_lt hc hc2
      rw [getWrapped, hcwr, hcwc, cellAt, if_pos ⟨hr, hc⟩, gridIndex]

theorem offsets_bounds :
    ∀ ij ∈ neighborOffsets, -1 ≤ ij.1 ∧ ij.1 ≤ 1 ∧ -1 ≤ ij.2 ∧ ij.2 ≤ 1 := by
  decide

theorem live_neighbors_eq_moore {grid : Grid} (hg : grid.length ≤ USIZE - 1)
    (hrow : ∀ row ∈ grid, row.length ≤ USIZE - 1) {x y : Nat}
    (hx : x ≤ USIZE - 2) (hy : y ≤ USIZE - 2) :
    live_neighbors grid x y = mooreLiveCount grid y x := by
  have hU : USIZE = 18446744073709551616 := by norm_num [USIZE]
  rw [live_neighbors_foldl, mooreLiveCount]
  apply List.foldl_ext
  intro a ij hij
  obtain ⟨h1, h2, h3, h4⟩ := offsets_bounds ij hij
  rw [getWrapped_eq_cellAt hg hrow (by omega) (by omega) (by omega) (by omega)]

/-- C2 amended: for every grid whose dimensions fit a Rust Vec and every
coordinate pair strictly below usize::MAX (including positions on edges,
corners, or outside the grid), live_neighbors is total, returns at most 8,
and counts exactly the live in-bounds Moore neighbors — every neighbor
offset landing outside the grid contributes zero.  (At coordinate
usize::MAX itself the signed-offset cast wraps around; see the
counterexample.) -/
theorem live_neighbors_safe (grid : Grid) (x y : Nat)
    (hg : grid.length ≤ USIZE - 1)
    (hrow : ∀ row ∈ grid, row.length ≤ USIZE - 1)
    (hx : x ≤ USIZE - 2) (hy : y ≤ USIZE - 2) :
    live_neighbors grid x y ≤ 8 ∧ live_neighbors grid x y = mooreLiveCount grid y x :=
  ⟨live_neighbors_le_eight grid x y, live_neighbors_eq_moore hg hrow hx hy⟩

/-- Witness for the amended C2 at a concrete corner cell. -/
theorem live_neighbors_safe_at :
    live_neighbors [[true, true], [false, true]] 0 0 ≤ 8 ∧
      live_neighbors [[true, true], [false, true]] 0 0 =
        mooreLiveCount [[true, true], [false, true]] 0 0 :=
  live_neighbors_safe [[true, true], [false, true]] 0 0 (by decide) (by decide)
    (by decide) (by decide)

/-- C2 counterexample: at the coordinate pair (usize::MAX, usize::MAX) on a
1-by-1 grid with a single live cell, the +1 signed offsets wrap to index 0,
so live_neighbors counts the in-bounds cell (0, 0) — which is not a Moore
neighbor of that position — and returns 1 although the position has no
in-bounds Moore neighbor at all. -/
theorem live_neighbors_wraps_at_usize_max :
    live_neighbors [[true]] (USIZE - 1) (USIZE - 1) = 1 ∧
      mooreLiveCount [[true]] (USIZE - 1) (USIZE - 1) = 0 := by
  decide

/-! C1: the B3/S23 rule, synchronously from the input generation. -/

theorem updateTotal_cell {grid : Grid} {size : ConsoleSize} {i j : Nat}
    (hi : i < size.rows) (hj : j < size.cols) :
    gridIndex (updateTotal grid size) i j =
      some (if (gridIndex grid i j).getD false
            then live_neighbors grid j i == 2 || live_neighbors grid j i == 3
            else live_neighbors grid j i == 3) := by
  rw [updateTotal, gridIndex]
  rw [List.get?_map, List.get?_range hi, Option.map_some', Option.some_bind,
    List.get?_map, List.get?_range hj, Option.map_some']

/-- C1: on a well-formed grid, the grid produced by update_grid holds, at
every in-bounds position (i, j), exactly the B3/S23 outcome computed from
the input generation: a live cell stays live iff it has exactly 2 or 3
live in-bounds Moore neighbors in the input grid, and a dead cell becomes
live iff it has exactly 3; every cell's next state is a function of the
input grid alone (synchronous update). -/
theorem advance_b3s23 (grid : Grid) (size : ConsoleSize) (i j : Nat)
    (hdims : Dims grid size.rows size.cols)
    (hr : size.rows ≤ USIZE - 1) (hc : size.cols ≤ USIZE - 1)
    (hi : i < size.rows) (hj : j < size.cols) :
    ∃ g' c, update_grid grid size = some g' ∧ gridIndex grid i j = some c ∧
      gridIndex g' i j =
        some (if c then mooreLiveCount grid i j == 2 || mooreLiveCount grid i j == 3
              else mooreLiveCount grid i j == 3) := by
  have hU : USIZE = 18446744073709551616 := by norm_num [USIZE]
  obtain ⟨b, hb⟩ := gridIndex_total hdims hi hj
  refine ⟨updateTotal grid size, b, update_grid_eq_total hdims, hb, ?_⟩
  rw [updateTotal_cell hi hj, hb]
  have hmoost : live_neighbors grid j i = mooreLiveCount grid i j := by
    refine live_neighbors_eq_moore ?_ ?_ ?_ ?_
    · rw [hdims.1]; exact hr
    · intro row hrowm
      rw [hdims.2 row hrowm]
      exact hc
    · omega
    · omega
  rw [hmoost]
  rfl

/-- Witness for C1 at cell (1, 1) of a concrete 2-by-2 grid. -/
theorem advance_b3s23_at :
    ∃ g' c, update_grid [[true, true], [true, false]] ⟨2, 2⟩ = some g' ∧
      gridIndex [[true, true], [true, false]] 1 1 = some c ∧
      gridIndex g' 1 1 =
        some (if c then mooreLiveCount [[true, true], [true, false]] 1 1 == 2 ||
                       mooreLiveCount [[true, true], [true, false]] 1 1 == 3
              else mooreLiveCount [[true, true], [true, false]] 1 1 == 3) :=
  advance_b3s23 [[true, true], [true, false]] ⟨2, 2⟩ 1 1 (by decide) (by decide)
    (by decide) (by decide) (by decide)

/-! C8: the statement-level pass only reads the input grid. -/

theorem update_grid_mut_inner_step {grid : Grid} {size : ConsoleSize}
    (hdims : Dims grid size.rows size.cols) {i j : Nat}
    (hi : i < size.rows) (hj : j < size.cols) (st2 : Grid × Grid)
    (hst : st2.1 = grid ∧ Dims st2.2 size.rows size.cols) :
    ∃ st', update_grid_mut_inner i st2 j = some st' ∧
      st'.1 = grid ∧ Dims st'.2 size.rows size.cols := by
  obtain ⟨g1, g2⟩ := st2
  obtain ⟨h1, h2⟩ := hst
  subst h1
  obtain ⟨c, hc⟩ := gridIndex_total hdims hi hj
  obtain ⟨ng, hng, hngDims, _⟩ := set2_some h2 hi hj
    (if c then live_neighbors g1 j i == 2 || live_neighbors g1 j i == 3
     else live_neighbors g1 j i == 3)
  refine ⟨(g1, ng), ?_, rfl, hngDims⟩
  simp [update_grid_mut_inner, hc, hng]

/-- C8: update_grid builds its result in a fresh grid and only reads its
input: on a well-formed grid the statement-level embedding of the pass
succeeds and the final value of the input-grid variable is exactly the
input, so after the call every cell of the input grid has the value it had
before the call. -/
theorem advance_leaves_input_unchanged (grid : Grid) (size : ConsoleSize)
    (hdims : Dims grid size.rows size.cols) :
    ∃ out, update_grid_mut grid size = some (grid, out) := by
  obtain ⟨st, hfold, hst1, hst2⟩ := foldO_inv
    (fun st i => foldO (update_grid_mut_inner i) st (List.range size.cols))
    (fun st : Grid × Grid => st.1 = grid ∧ Dims st.2 size.rows size.cols)
    (List.range size.rows) (grid, mkGrid size.rows size.cols)
    ⟨rfl, mkGrid_dims size.rows size.cols⟩
    (fun st i hi hst =>
      foldO_inv (update_grid_mut_inner i) _ (List.range size.cols) st hst
        (fun st2 j hj hst2 =>
          update_grid_mut_inner_step hdims (List.mem_range.mp hi)
            (List.mem_range.mp hj) st2 hst2))
  refine ⟨st.2, ?_⟩
  rw [update_grid_mut, hfold, ← hst1]

/-- Witness for C8 at a concrete 2-by-2 grid. -/
theorem advance_leaves_input_unchanged_at :
    ∃ out, update_grid_mut [[false, true], [true, true]] ⟨2, 2⟩ =
      some ([[false, true], [true, true]], out) :=
  advance_leaves_input_unchanged [[false, true], [true, true]] ⟨2, 2⟩ (by decide)

/-! C6 amended: initialize_grid cannot fail for a probability inside
[0, 1], and probability zero yields the all-dead grid. -/

theorem initialize_cell_step {p : ℚ} {rng : Nat → ℚ} {size : ConsoleSize}
    (h0 : 0 ≤ p) (h1 : p ≤ 1) (hrng : ∀ k, 0 ≤ rng k) {i j : Nat}
    (hi : i < size.cols) (hj : j < size.rows) (g2 : Grid)
    (hg : Dims g2 size.rows size.cols ∧ (p = 0 → ∀ row ∈ g2, ∀ b ∈ row, b = false)) :
    ∃ g', initialize_cell p rng size i g2 j = some g' ∧
      Dims g' size.rows size.cols ∧ (p = 0 → ∀ row ∈ g', ∀ b ∈ row, b = false) := by
  obtain ⟨hdims, hdead⟩ := hg
  have hgen : gen_bool p (rng (i * size.rows + j)) =
      some (decide (rng (i * size.rows + j) < p)) := by
    rw [gen_bool, if_neg]
    simp only [not_or, not_lt]
    exact ⟨h0, h1⟩
  obtain ⟨g', hset, hdims', hQ⟩ := set2_some hdims hj hi
    (decide (rng (i * size.rows + j) < p))
  refine ⟨g', ?_, hdims', ?_⟩
  · simp [initialize_cell, hgen, hset]
  · intro hp0
    refine hQ (fun b => b = false) (hdead hp0) ?_
    subst hp0
    simp only [decide_eq_false_iff_not, not_lt]
    exact hrng _

theorem set2_gridIndex {g : Grid} {r c : Nat} (h : Dims g r c) {i j : Nat}
    (hi : i < r) (hj : j < c) (v : Bool) {g' : Grid}
    (hset : set2 g i j v = some g') :
    gridIndex g' i j = some v ∧
      ∀ i' j', i' ≠ i ∨ j' ≠ j → gridIndex g' i' j' = gridIndex g i' j' := by
  obtain ⟨hlen, hrows⟩ := h
  have hi' : i < g.length := by omega
  have hg : g.get? i = some (g.get ⟨i, hi'⟩) := List.get?_eq_get hi'
  have hmem : g.get ⟨i, hi'⟩ ∈ g := List.get_mem g i hi'
  have hjl : j < (g.get ⟨i, hi'⟩).length := by
    have := hrows _ hmem
    omega
  have hset2 : set2 g i j v = some (g.set i ((g.get ⟨i, hi'⟩).set j v)) := by
    rw [set2, hg]
    show (if j < (List.get g ⟨i, hi'⟩).length then _ else none) = _
    rw [if_pos hjl]
  have hform : g' = g.set i ((g.get ⟨i, hi'⟩).set j v) := by
    rw [hset2] at hset
    exact (Option.some.inj hset).symm
  subst hform
  constructor
  · rw [gridIndex, List.get?_set_eq_of_lt _ hi', Option.some_bind,
      List.get?_set_eq_of_lt _ hjl]
  · intro i' j' hne
    by_cases hii : i' = i
    · subst hii
      rcases hne with h' | h'
      · exact absurd rfl h'
      · rw [gridIndex, gridIndex, List.get?_set_eq_of_lt _ hi', hg,
          Option.some_bind, Option.some_bind, List.get?_set_ne _ _ (Ne.symm h')]
    · rw [gridIndex, gridIndex, List.get?_set_ne _ _ (fun hc => hii hc.symm)]

theorem initialize_col_all {p : ℚ} {rng : Nat → ℚ} {size : ConsoleSize} {v : Bool}
    (hwrite : ∀ k, gen_bool p (rng k) = some v) {i : Nat} (hi : i < size.cols) :
    ∀ (l : List Nat) (g2 : Grid), Dims g2 size.rows size.cols →
      (∀ j ∈ l, j < size.rows) →
      ∃ g', foldO (initialize_cell p rng size i) g2 l = some g' ∧
        Dims g' size.rows size.cols ∧
        (∀ j ∈ l, gridIndex g' j i = some v) ∧
        (∀ j r, j ∉ l ∨ r ≠ i → gridIndex g' j r = gridIndex g2 j r) := by
  intro l
  induction l with
  | nil =>
    intro g2 hd _
    exact ⟨g2, rfl, hd, by simp, fun j r _ => rfl⟩
  | cons j l ih =>
    intro g2 hd hl
    have hj : j < size.rows := hl j (by simp)
    obtain ⟨g1, hset, hd1, _⟩ := set2_some hd hj hi v
    obtain ⟨hcell, hother⟩ := set2_gridIndex hd hj hi v hset
    obtain ⟨g', hfold, hd', hcol, hoth'⟩ := ih g1 hd1 (fun x hx => hl x (by simp [hx]))
    refine ⟨g', ?_, hd', ?_, ?_⟩
    · simp [foldO, initialize_cell, hwrite, hset, hfold]
    · intro j' hj'
      rcases List.mem_cons.mp hj' with h' | h'
      · subst h'
        by_cases hmem : j' ∈ l
        · exact hcol j' hmem
        · rw [hoth' j' i (Or.inl hmem)]
          exact hcell
      · exact hcol j' h'
    · intro j' r hnot
      have hnot1 : j' ∉ l ∨ r ≠ i := by
        rcases hnot with h' | h'
        · exact Or.inl (fun hc => h' (List.mem_cons.mpr (Or.inr hc)))
        · exact Or.inr h'
      rw [hoth' j' r hnot1]
      refine hother j' r ?_
      rcases hnot with h' | h'
      · exact Or.inl (fun hc => h' (hc ▸ List.mem_cons_self j l))
      · exact Or.inr h'

theorem initialize_all_cells {p : ℚ} {rng : Nat → ℚ} {size : ConsoleSize} {v : Bool}
    (hwrite : ∀ k, gen_bool p (rng k) = some v) :
    ∀ (lc : List Nat) (g : Grid), Dims g size.rows size.cols →
      (∀ i ∈ lc, i < size.cols) →
      ∃ g', foldO
          (fun g2 i => foldO (initialize_cell p rng size i) g2 (List.range size.rows))
          g lc = some g' ∧
        Dims g' size.rows size.cols ∧
        (∀ j r, j < size.rows → r ∈ lc → gridIndex g' j r = some v) ∧
        (∀ j r, r ∉ lc → gridIndex g' j r = gridIndex g j r) := by
  intro lc
  induction lc with
  | nil =>
    intro g hd _
    exact ⟨g, rfl, hd, by simp, fun j r _ => rfl⟩
  | cons i lc ih =>
    intro g hd hlc
    have hi : i < size.cols := hlc i (by simp)
    obtain ⟨g1, hfold1, hd1, hcol, hoth1⟩ :=
      initialize_col_all hwrite hi (List.range size.rows) g hd
        (fun j hj => List.mem_range.mp hj)
    obtain ⟨g', hfold', hd', hall, hoth'⟩ := ih g1 hd1 (fun x hx => hlc x (by simp [hx]))
    refine ⟨g', ?_, hd', ?_, ?_⟩
    · simp [foldO, hfold1, hfold']
    · intro j r hj hr
      rcases List.mem_cons.mp hr with h' | h'
      · subst h'
        by_cases hmem : r ∈ lc
        · exact hall j r hj hmem
        · rw [hoth' j r hmem]
          exact hcol j (List.mem_range.mpr hj)
      · exact hall j r hj h'
    · intro j r hr
      have h1 : r ∉ lc := fun hc => hr (List.mem_cons.mpr (Or.inr hc))
      have h2 : r ≠ i := fun hc => hr (by rw [hc]; exact List.mem_cons_self i lc)
      rw [hoth' j r h1]
      exact hoth1 j r (Or.inr h2)

/-- C6 amended: for every probability within [0, 1], initialize_grid does
not fail: it produces a rows-by-cols grid; at probability 0 the grid is
entirely dead, and at probability 1 (the uniform samples lying in [0, 1))
the grid is entirely live.  (For probability outside [0, 1] the underlying
gen_bool panics; see the counterexample.) -/
theorem initialize_grid_in_range_ok (p : ℚ) (size : ConsoleSize) (rng : Nat → ℚ)
    (h0 : 0 ≤ p) (h1 : p ≤ 1) (hrng0 : ∀ k, 0 ≤ rng k) (hrng1 : ∀ k, rng k < 1) :
    ∃ g, initialize_grid p size rng = some g ∧ Dims g size.rows size.cols ∧
      (p = 0 → ∀ row ∈ g, ∀ b ∈ row, b = false) ∧
      (p = 1 → ∀ row ∈ g, ∀ b ∈ row, b = true) := by
  obtain ⟨g, hfold, hdims, hdead⟩ := foldO_inv
    (fun g i => foldO (initialize_cell p rng size i) g (List.range size.rows))
    (fun g : Grid =>
      Dims g size.rows size.cols ∧ (p = 0 → ∀ row ∈ g, ∀ b ∈ row, b = false))
    (List.range size.cols) (mkGrid size.rows size.cols)
    ⟨mkGrid_dims size.rows size.cols, fun _ => mkGrid_all_false size.rows size.cols⟩
    (fun g i hi hg =>
      foldO_inv (initialize_cell p rng size i) _ (List.range size.rows) g hg
        (fun g2 j hj hg2 =>
          initialize_cell_step h0 h1 hrng0 (List.mem_range.mp hi)
            (List.mem_range.mp hj) g2 hg2))
  have hinit : initialize_grid p size rng = some g := by rw [initialize_grid, hfold]
  refine ⟨g, hinit, hdims, hdead, ?_⟩
  intro hp1
  subst hp1
  have hwrite : ∀ k, gen_bool 1 (rng k) = some true := by
    intro k
    rw [gen_bool, if_neg]
    · rw [decide_eq_true (hrng1 k)]
    · simp only [not_or, not_lt]
      constructor <;> norm_num
  obtain ⟨g2, hfold2, hd2, hall, _⟩ := initialize_all_cells hwrite
    (List.range size.cols) (mkGrid size.rows size.cols)
    (mkGrid_dims size.rows size.cols) (fun x hx => List.mem_range.mp hx)
  have hinit2 : initialize_grid 1 size rng = some g2 := by rw [initialize_grid, hfold2]
  have hgg : g2 = g := by
    rw [hinit] at hinit2
    exact (Option.some.inj hinit2).symm
  subst hgg
  intro row hrow b hb
  obtain ⟨k, hk⟩ := List.mem_iff_get?.mp hrow
  obtain ⟨x, hx⟩ := List.mem_iff_get?.mp hb
  obtain ⟨hklen, _⟩ := List.get?_eq_some.mp hk
  obtain ⟨hxlen, _⟩ := List.get?_eq_some.mp hx
  have hkr : k < size.rows := by
    have := hdims.1
    omega
  have hxc : x < size.cols := by
    have := hdims.2 row (List.get?_mem hk)
    omega
  have hcell := hall k x hkr (List.mem_range.mpr hxc)
  rw [gridIndex, hk, Option.some_bind, hx] at hcell
  exact Option.some.inj hcell

/-- Witness for the amended C6 at probability 0 on a 1-by-2 console. -/
theorem initialize_grid_in_range_ok_at :
    ∃ g, initialize_grid 0 ⟨1, 2⟩ (fun _ => 0) = some g ∧ Dims g 1 2 ∧
      ((0 : ℚ) = 0 → ∀ row ∈ g, ∀ b ∈ row, b = false) ∧
      ((0 : ℚ) = 1 → ∀ row ∈ g, ∀ b ∈ row, b = true) :=
  initialize_grid_in_range_ok 0 ⟨1, 2⟩ (fun _ => 0) le_rfl (by norm_num)
    (fun _ => le_rfl) (fun _ => by norm_num)

/-! Analysis of display_grid: exact diff rendering (C3) and the coverage
precondition (C10). -/

theorem sameDims_get? : ∀ (g p : Grid), sameDims g p = true →
    ∀ k r, g.get? k = some r → ∃ pr, p.get? k = some pr ∧ r.length = pr.length := by
  intro g
  induction g with
  | nil =>
    intro p h k r hk
    simp at hk
  | cons row g ih =>
    intro p h k r hk
    cases p with
    | nil => simp [sameDims] at h
    | cons prow p =>
      rw [sameDims, Bool.and_eq_true] at h
      obtain ⟨h1, h2⟩ := h
      cases k with
      | zero =>
        have hr : row = r := by simpa using hk
        refine ⟨prow, rfl, ?_⟩
        rw [← hr]
        exact beq_iff_eq.mp h1
      | succ k => exact ih p h2 k r hk

theorem sameDims_length : ∀ (g p : Grid), sameDims g p = true → g.length = p.length := by
  intro g
  induction g with
  | nil =>
    intro p h
    cases p with
    | nil => rfl
    | cons _ _ => simp [sameDims] at h
  | cons row g ih =>
    intro p h
    cases p with
    | nil => simp [sameDims] at h
    | cons prow p =>
      rw [sameDims, Bool.and_eq_true] at h
      simp [ih p h.2]

theorem display_cells_eq (prev : Grid) (y : Nat) (prow : List Bool)
    (hp : prev.get? y = some prow) (hy : y < 65536) :
    ∀ (row : List Bool) (x : Nat), x + row.length ≤ prow.length →
      x + row.length ≤ 65536 →
      display_cells prev y x row = some (specCellOps prev y x row) := by
  intro row
  induction row with
  | nil => intro x _ _; rfl
  | cons cell rest ih =>
    intro x hcov hbound
    have hlc : (cell :: rest).length = rest.length + 1 := by simp
    have hx : x < prow.length := by omega
    have hgi : gridIndex prev y x = some (prow.get ⟨x, hx⟩) := by
      rw [gridIndex, hp, Option.some_bind]
      exact List.get?_eq_get hx
    have hrec := ih (x + 1) (by omega) (by omega)
    have hx6 : x % 65536 = x := Nat.mod_eq_of_lt (by omega)
    have hy6 : y % 65536 = y := Nat.mod_eq_of_lt hy
    simp only [display_cells, specCellOps, hgi, hrec, Option.getD_some, hx6, hy6,
      specGlyph]

theorem display_rows_eq (prev : Grid) (hprevlen : prev.length ≤ 65536) :
    ∀ (rest : Grid) (y : Nat),
      (∀ k r, rest.get? k = some r →
        ∃ pr, prev.get? (y + k) = some pr ∧ r.length = pr.length ∧ r.length ≤ 65536) →
      display_rows prev y rest = some (specRowOps prev y rest) := by
  intro rest
  induction rest with
  | nil => intro y _; rfl
  | cons row rest ih =>
    intro y h
    obtain ⟨pr, hpr, hlen, hb⟩ := h 0 row rfl
    have hpr' : prev.get? y = some pr := by simpa using hpr
    have hy : y < prev.length := by
      rcases List.get?_eq_some.mp hpr' with ⟨hlt, _⟩
      exact hlt
    have hcells := display_cells_eq prev y pr hpr' (by omega) row 0 (by omega) (by omega)
    have hrest := ih (y + 1) (fun k r hk => by
      obtain ⟨pr2, hpr2, h2, h3⟩ := h (k + 1) r (by simpa using hk)
      refine ⟨pr2, ?_, h2, h3⟩
      rw [show y + 1 + k = y + (k + 1) by omega]
      exact hpr2)
    simp only [display_rows, specRowOps, hcells, hrest]

theorem display_cells_self (g : Grid) (y : Nat) (prow : List Bool)
    (hg : g.get? y = some prow) :
    ∀ (row : List Bool) (x : Nat), (∀ k, row.get? k = prow.get? (x + k)) →
      display_cells g y x row = some [] := by
  intro row
  induction row with
  | nil => intro x _; rfl
  | cons cell rest ih =>
    intro x h
    have h0 : prow.get? x = some cell := by
      have h0' := h 0
      simpa using h0'.symm
    have hgi : gridIndex g y x = some cell := by
      rw [gridIndex, hg, Option.some_bind, h0]
    have hrec := ih (x + 1) (fun k => by
      have hk := h (k + 1)
      rw [show x + (k + 1) = (x + 1) + k by omega] at hk
      simpa using hk)
    simp [display_cells, hgi, hrec]

theorem display_rows_self (g : Grid) :
    ∀ (rest : Grid) (y : Nat), (∀ k, rest.get? k = g.get? (y + k)) →
      display_rows g y rest = some [] := by
  intro rest
  induction rest with
  | nil => intro y _; rfl
  | cons row rest ih =>
    intro y h
    have h0 : g.get? y = some row := by
      have h0' := h 0
      simpa using h0'.symm
    have hcells := display_cells_self g y row h0 row 0 (fun k => by simp)
    have hrest := ih (y + 1) (fun k => by
      have hk := h (k + 1)
      rw [show y + (k + 1) = (y + 1) + k by omega] at hk
      simpa using hk)
    simp [display_rows, hcells, hrest]

theorem display_grid_self (g : Grid) : display_grid g g = some [] :=
  display_rows_self g g 0 (fun k => by simp)

/-- C3: for equal-dimension grids (whose dimensions fit the u16 console
coordinate space), display_grid issues exactly one cursor-move-and-write
pair at every position where the current grid differs from the previous
grid, in row-major order, with a hash for a live cell and a space for a
dead one, and touches no other position; and on two identical grids it
issues zero draw operations. -/
theorem paint_diff_exact (grid prev : Grid)
    (hdims : sameDims grid prev = true)
    (hlen : grid.length ≤ 65536)
    (hrows : ∀ row ∈ grid, row.length ≤ 65536) :
    display_grid grid prev = some (specDiffOps grid prev) ∧
      display_grid grid grid = some [] := by
  constructor
  · rw [display_grid, specDiffOps]
    apply display_rows_eq prev (by rw [← sameDims_length grid prev hdims]; exact hlen)
    intro k r hk
    obtain ⟨pr, hpr, hl⟩ := sameDims_get? grid prev hdims k r hk
    exact ⟨pr, by simpa using hpr, hl, hrows r (List.get?_mem hk)⟩
  · exact display_grid_self grid

/-- Witness for C3 on a concrete pair of 2-by-2 grids differing at one
position. -/
theorem paint_diff_exact_at :
    display_grid [[true, false], [false, true]] [[false, false], [false, true]] =
        some (specDiffOps [[true, false], [false, true]] [[false, false], [false, true]]) ∧
      display_grid [[true, false], [false, true]] [[true, false], [false, true]] =
        some [] :=
  paint_diff_exact [[true, false], [false, true]] [[false, false], [false, true]]
    (by decide) (by decide) (by decide)

theorem display_cells_isSome (prev : Grid) (y : Nat) :
    ∀ (row : List Bool) (x : Nat),
      (display_cells prev y x row).isSome = true ↔
        ∀ k, k < row.length → (gridIndex prev y (x + k)).isSome = true := by
  intro row
  induction row with
  | nil => intro x; simp [display_cells]
  | cons cell rest ih =>
    intro x
    cases hgi : gridIndex prev y x with
    | none =>
      simp only [display_cells, hgi]
      constructor
      · intro h
        simp at h
      · intro h
        have h0 := h 0 (by simp)
        rw [Nat.add_zero, hgi] at h0
        simp at h0
    | some p =>
      simp only [display_cells, hgi]
      cases hrec : display_cells prev y (x + 1) rest with
      | none =>
        constructor
        · intro h
          simp at h
        · intro h
          exfalso
          have hsome : (display_cells prev y (x + 1) rest).isSome = true := by
            rw [ih (x + 1)]
            intro k hk
            have hkk := h (k + 1) (by simpa using hk)
            rw [show x + (k + 1) = (x + 1) + k by omega] at hkk
            exact hkk
          rw [hrec] at hsome
          simp at hsome
      | some ops =>
        constructor
        · intro _ k hk
          cases k with
          | zero =>
            rw [Nat.add_zero, hgi]
            rfl
          | succ k =>
            have hs : (display_cells prev y (x + 1) rest).isSome = true := by
              rw [hrec]; rfl
            have hkk := (ih (x + 1)).mp hs k (by simpa using hk)
            rw [show (x + 1) + k = x + (k + 1) by omega] at hkk
            exact hkk
        · intro _
          rfl

theorem display_rows_isSome (prev : Grid) :
    ∀ (rest : Grid) (y : Nat),
      (display_rows prev y rest).isSome = true ↔
        ∀ k row, rest.get? k = some row →
          ∀ x, x < row.length → (gridIndex prev (y + k) x).isSome = true := by
  intro rest
  induction rest with
  | nil =>
    intro y
    constructor
    · intro _ k row hk
      simp at hk
    · intro _
      rfl
  | cons row rest ih =>
    intro y
    cases hc : display_cells prev y 0 row with
    | none =>
      simp only [display_rows, hc]
      constructor
      · intro h
        simp at h
      · intro h
        exfalso
        have hsome : (display_cells prev y 0 row).isSome = true := by
          rw [display_cells_isSome]
          intro k hk
          have hkk := h 0 row rfl k hk
          simpa using hkk
        rw [hc] at hsome
        simp at hsome
    | some ops =>
      cases hr : display_rows prev (y + 1) rest with
      | none =>
        simp only [display_rows, hc, hr]
        constructor
        · intro h
          simp at h
        · intro h
          exfalso
          have hsome : (display_rows prev (y + 1) rest).isSome = true := by
            rw [ih (y + 1)]
            intro k r hk x hxk
            have hkk := h (k + 1) r (by simpa using hk) x hxk
            rw [show y + (k + 1) = (y + 1) + k by omega] at hkk
            exact hkk
          rw [hr] at hsome
          simp at hsome
      | some ops2 =>
        simp only [display_rows, hc, hr]
        constructor
        · intro _ k r hk x hxk
          cases k with
          | zero =>
            have hr0 : row = r := by simpa using hk
            have hs : (display_cells prev y 0 row).isSome = true := by
              rw [hc]; rfl
            have hkk := (display_cells_isSome prev y row 0).mp hs x (by rw [hr0]; exact hxk)
            simpa using hkk
          | succ k =>
            have hs : (display_rows prev (y + 1) rest).isSome = true := by
              rw [hr]; rfl
            have hkk := (ih (y + 1)).mp hs k r (by simpa using hk) x hxk
            rw [show (y + 1) + k = y + (k + 1) by omega] at hkk
            exact hkk
        · intro _
          rfl

/-- C10 amended: display_grid indexes the previous grid at every position
actually present in the current grid, and faults exactly when some such
position is uncovered: it succeeds if and only if, for every row of the
current grid and every column index within that row, the previous grid has
a cell there.  A previous grid with fewer or shorter rows faults whenever
the missing area meets a position of a nonempty current row (but not, for
example, when the affected current rows are empty; see the counterexample).
Under the equal-dimensions precondition it never faults. -/
theorem paint_diff_requires_coverage (grid prev : Grid) :
    ((display_grid grid prev).isSome = true ↔
      ∀ k row, grid.get? k = some row →
        ∀ x, x < row.length → (gridIndex prev k x).isSome = true) ∧
      (sameDims grid prev = true → (display_grid grid prev).isSome = true) := by
  have hmain : (display_grid grid prev).isSome = true ↔
      ∀ k row, grid.get? k = some row →
        ∀ x, x < row.length → (gridIndex prev k x).isSome = true := by
    rw [display_grid, display_rows_isSome]
    simp only [Nat.zero_add]
  refine ⟨hmain, fun hsd => hmain.mpr ?_⟩
  intro k row hk x hx
  obtain ⟨pr, hpr, hlen⟩ := sameDims_get? grid prev hsd k row hk
  rw [gridIndex, hpr, Option.some_bind,
    List.get?_eq_get (show x < pr.length by omega)]
  rfl
